import Mathlib

/-!
Shallow embedding of `authopenid/openid_consumer.py` (the OpenID relying-party
consumer core of the authopenid Trac plugin).

The repository code under `src/` is translated directly.  Third-party
dependencies (python-openid's protocol engine, the `pickle` and `base64`
modules, `urlparse`, Trac's request/session/database layer) are modelled as
explicit data and executable functions at their interfaces; the protocol
engine's `begin`/`complete` results are universally quantified inputs.
-/

namespace AuthOpenId

/-- Python truthiness of an optional string (`if x:`):
`None` and the empty string are falsy. -/
def pyTruthy : Option String → Bool
  | none => false
  | some s => !s.isEmpty

/-- Python dict assignment `d[k] = v` on an association-list model of a
string-keyed dict: replace the value at an existing key, else append. -/
def dictSet (k v : String) (s : List (String × String)) : List (String × String) :=
  if (s.lookup k).isSome then
    s.map (fun p => if p.1 = k then (p.1, v) else p)
  else s ++ [(k, v)]

/-- Python dict deletion `del d[k]` on the association-list model. -/
def dictDel (k : String) (s : List (String × String)) : List (String × String) :=
  s.filter (fun p => p.1 ≠ k)

/-- Decimal digit character for `n < 10` (models Python number formatting). -/
def digitChar (n : Nat) : Char := Char.ofNat (48 + n)

/-- Fuelled helper for `natDigits`; a fuel of `n + 1` always suffices. -/
def natDigitsAux : Nat → Nat → List Char
  | 0, _ => []
  | fuel + 1, n =>
    if n < 10 then [digitChar n]
    else natDigitsAux fuel (n / 10) ++ [digitChar (n % 10)]

/-- Decimal digits of a natural number, most significant first
(models Python `str` on a non-negative integer). -/
def natDigits (n : Nat) : List Char := natDigitsAux (n + 1) n

/-- Python `str()` of an integer. -/
def py_str (i : Int) : String :=
  match i with
  | .ofNat n => ⟨natDigits n⟩
  | .negSucc n => ⟨'-' :: natDigits (n + 1)⟩

/-- Numeric value of a decimal digit character, if it is one. -/
def digitVal (c : Char) : Option Nat :=
  if 48 ≤ c.toNat ∧ c.toNat ≤ 57 then some (c.toNat - 48) else none

/-- Parse a non-empty string of decimal digits. -/
def parseNatDigits : List Char → Option Nat
  | [] => none
  | [c] => digitVal c
  | c :: cs => do
      let d ← digitVal c
      let rest ← parseNatDigits cs
      pure (d * 10 ^ cs.length + rest)

/-- Python `int()` on a string (sign and decimal digits; anything else is a
`ValueError`, modelled as `none`). -/
def py_int (s : String) : Option Int :=
  match s.data with
  | '-' :: rest => (parseNatDigits rest).map (fun n => -(n : Int))
  | l => (parseNatDigits l).map Int.ofNat

/-! ## Store selection (`openid_store`, lines 97–156)

`STORE_CLASSES` maps the configured database scheme to a python-openid
SQL store class; any other scheme falls back to
`openid.store.memstore.MemoryStore`.  All three SQL store classes expose
`createTables`; `MemoryStore` does not. -/

/-- The database schemes with a matching SQL store class
(`openid_store.STORE_CLASSES`). -/
def STORE_SCHEMES : List String := ["sqlite", "mysql", "postgres"]

/-- Whether the store selected for `scheme` has a `createTables` attribute:
true exactly for the SQL store classes; the `MemoryStore` fallback lacks it. -/
def store_has_createTables (scheme : String) : Bool :=
  STORE_SCHEMES.contains scheme

/-! ## Environment schema lifecycle (`IEnvironmentSetupParticipant` methods) -/

/-- The Trac environment's database state, as seen by this component: the
`system` key/value table (values are strings, as stored by Trac) and the set
of existing table names. -/
structure TracEnv where
  system : List (String × String)
  tables : List String
deriving DecidableEq

/-- `OpenIDConsumer.schema_version_key`. -/
def schema_version_key : String := "authopenid.openid_store_version"

/-- `OpenIDConsumer._get_schema_version`: `SELECT value FROM system WHERE
name=%s`, then Python `int()` of the first row if any.  `none` models both
"no row" and an unparseable value (which would raise `ValueError`). -/
def get_schema_version (env : TracEnv) : Option Int :=
  (env.system.lookup schema_version_key).bind py_int

/-- Modelled from the spec: `table_exists` (from `authopenid.util`, not under
`src/`) reports whether a named table already exists in the environment's
database ("Upgrade from unversioned state must check for pre-existing tables
before creating them"). -/
def table_exists (env : TracEnv) (name : String) : Bool :=
  env.tables.contains name

/-- The message of the `TracError` raised on an attempted downgrade. -/
def downgrade_error (have_ want : Int) : String :=
  "Downgrading unsupported: openid store version is " ++ py_str have_ ++
    ", we want " ++ py_str want

/-- `OpenIDConsumer.environment_needs_upgrade` (lines 276–287).  Returns the
answer (or the raised `TracError`) together with the database state after the
call; the method only reads, so the state is returned unchanged on every
path. -/
def environment_needs_upgrade (hasCreateTables : Bool) (env : TracEnv) :
    Except String Bool × TracEnv :=
  match get_schema_version env with
  | none => (.ok true, env)
  | some have_ =>
    let want : Int := if hasCreateTables then 1 else 0
    if have_ > want then (.error (downgrade_error have_ want), env)
    else (.ok (have_ < want), env)

/-- `store.createTables()` of a python-openid SQL store: creates the
association and nonce tables. -/
def createTables (env : TracEnv) : TracEnv :=
  { env with tables := env.tables ++ ["oid_associations", "oid_nonces"] }

/-- `INSERT INTO system (name, value) VALUES (%s, %s)`. -/
def sysInsert (k v : String) (env : TracEnv) : TracEnv :=
  { env with system := env.system ++ [(k, v)] }

/-- `UPDATE system SET value=%s WHERE name=%s` (updates every matching row,
inserts nothing). -/
def sysUpdate (k v : String) (env : TracEnv) : TracEnv :=
  { env with system := env.system.map (fun p => if p.1 = k then (p.1, v) else p) }

/-- Result of `OpenIDConsumer.upgrade_environment`: the database state after
the call, and whether `store.createTables()` was invoked. -/
structure UpgradeResult where
  env : TracEnv
  createTablesCalled : Bool
deriving DecidableEq

/-- `OpenIDConsumer.upgrade_environment` (lines 289–315).  `hasCreateTables`
records whether the selected store has a `createTables` attribute (the
`hasattr` check).  The `assert 0 <= version < 2` is modelled as an
`AssertionError` result. -/
def upgrade_environment (hasCreateTables : Bool) (env0 : TracEnv) :
    Except String UpgradeResult :=
  let orig := get_schema_version env0
  let version : Int := match orig with | none => 0 | some v => v
  let env1 : TracEnv := match orig with
    | none => sysInsert schema_version_key (py_str 0) env0
    | some _ => env0
  if 0 ≤ version ∧ version < 2 then
    let step : TracEnv × Bool :=
      if version < 1 then
        if ¬ table_exists env1 "oid_associations" then
          if hasCreateTables then (createTables env1, true) else (env1, false)
        else (env1, false)
      else (env1, false)
    let version2 : Int := if version < 1 then 1 else version
    .ok ⟨sysUpdate schema_version_key (py_str version2) step.1, step.2⟩
  else .error "AssertionError"

/-! ## Trust root derivation (`OpenIDConsumer._get_trust_root`, lines 258–268) -/

/-- The parsed components of `req.abs_href()` (Trac's base URL for the
current environment): scheme, network location, and the application's path
prefix.  `urlparse(req.abs_href() + '/')` is modelled componentwise: for a
URL of this shape it yields the same scheme and netloc, with `'/'` appended
to the path. -/
structure BaseHref where
  scheme : String
  netloc : String
  path : String
deriving DecidableEq

/-- Python `urlunparse((scheme, netloc, path) + (None,) * 3)`. -/
def urlunparse (scheme netloc path : String) : String :=
  scheme ++ "://" ++ netloc ++ path

/-- Python `str.endswith` on the character-list view of strings. -/
def pyEndsWith (s suffix : String) : Bool :=
  suffix.data.isSuffixOf s.data

/-- `OpenIDConsumer._get_trust_root`.  The `assert root.scheme and
root.netloc` is modelled as an `AssertionError` result (Python truthiness:
an empty component is falsy). -/
def get_trust_root (absolute_trust_root : Bool) (base : BaseHref) :
    Except String String :=
  let rootPath := base.path ++ "/"
  if base.scheme = "" ∨ base.netloc = "" then .error "AssertionError"
  else
    let path := if absolute_trust_root then "/" else rootPath
    let path := if pyEndsWith path "/" then path else path ++ "/"
    .ok (urlunparse base.scheme base.netloc path)

/-! ## The `base64` module (dependency model)

`b64encode`/`b64decode` from the Python standard library, modelled as
executable functions on byte lists (bytes are `Nat`s below 256).  Decoding
rejects malformed input with `none` (Python 2's `b64decode` raises
`TypeError` there). -/

/-- The standard base64 alphabet. -/
def b64alphabet : List Char :=
  ['A','B','C','D','E','F','G','H','I','J','K','L','M',
   'N','O','P','Q','R','S','T','U','V','W','X','Y','Z',
   'a','b','c','d','e','f','g','h','i','j','k','l','m',
   'n','o','p','q','r','s','t','u','v','w','x','y','z',
   '0','1','2','3','4','5','6','7','8','9','+','/']

/-- Character for a six-bit group. -/
def sextetChar (n : Nat) : Char := b64alphabet.getD n 'A'

/-- Six-bit value of an alphabet character, if it is one. -/
def sextetVal (c : Char) : Option Nat := b64alphabet.indexOf? c

/-- Base64-encode a byte list, three bytes to four characters, padding the
final partial group with `=`. -/
def b64encodeBytes : List Nat → List Char
  | [] => []
  | [b1] => [sextetChar (b1 / 4), sextetChar (b1 % 4 * 16), '=', '=']
  | [b1, b2] =>
      [sextetChar (b1 / 4), sextetChar (b1 % 4 * 16 + b2 / 16),
       sextetChar (b2 % 16 * 4), '=']
  | b1 :: b2 :: b3 :: rest =>
      sextetChar (b1 / 4) :: sextetChar (b1 % 4 * 16 + b2 / 16) ::
      sextetChar (b2 % 16 * 4 + b3 / 64) :: sextetChar (b3 % 64) ::
      b64encodeBytes rest

/-- Base64-decode a character list, four characters to three bytes, with the
two `=`-padded final forms. -/
def b64decodeChars : List Char → Option (List Nat)
  | [] => some []
  | c1 :: c2 :: c3 :: c4 :: rest =>
      if c3 = '=' then
        if c4 = '=' ∧ rest = [] then do
          let s1 ← sextetVal c1
          let s2 ← sextetVal c2
          pure [s1 * 4 + s2 / 16]
        else none
      else if c4 = '=' then
        if rest = [] then do
          let s1 ← sextetVal c1
          let s2 ← sextetVal c2
          let s3 ← sextetVal c3
          pure [s1 * 4 + s2 / 16, s2 % 16 * 16 + s3 / 4]
        else none
      else do
        let s1 ← sextetVal c1
        let s2 ← sextetVal c2
        let s3 ← sextetVal c3
        let s4 ← sextetVal c4
        let tail ← b64decodeChars rest
        pure ((s1 * 4 + s2 / 16) :: (s2 % 16 * 16 + s3 / 4) ::
              (s3 % 4 * 64 + s4) :: tail)
  | _ => none

/-- `base64.b64encode`: bytes to text. -/
def b64encode (bs : List Nat) : String := ⟨b64encodeBytes bs⟩

/-- `base64.b64decode`: text to bytes, `none` on malformed input. -/
def b64decode (s : String) : Option (List Nat) := b64decodeChars s.data

/-! ## The `pickle` module (dependency model)

`PickleSession` stores "any kind of object"; the values are modelled by the
inductive `PickleVal` (none, integers, strings, pairs — enough to represent
arbitrary structured protocol state).  `pickle.dumps` on the session dict is
a self-delimiting byte encoding of the entry list; `pickle.loads` is its
partial inverse, `none` modelling `pickle.UnpicklingError`.  Every emitted
byte is a small tag or a unary digit, so the encoding is binary-safe. -/

/-- A picklable value stored in the session bag. -/
inductive PickleVal : Type
  | pnone : PickleVal
  | pint (n : Int) : PickleVal
  | pstr (s : String) : PickleVal
  | ppair (a b : PickleVal) : PickleVal
deriving DecidableEq

/-- Self-delimiting encoding of a natural number (unary digits `1`
terminated by `0`). -/
def encodeNat : Nat → List Nat
  | 0 => [0]
  | n + 1 => 1 :: encodeNat n

/-- Inverse of `encodeNat`, returning the remaining input. -/
def decodeNat : List Nat → Option (Nat × List Nat)
  | 0 :: rest => some (0, rest)
  | 1 :: rest => (decodeNat rest).map (fun p => (p.1 + 1, p.2))
  | _ => none

/-- Encoding of a string: its length, then each character's code point. -/
def encodeStrBytes (s : String) : List Nat :=
  encodeNat s.data.length ++ (s.data.map (fun c => encodeNat c.toNat)).flatten

/-- Decode `n` character code points. -/
def decodeChars : Nat → List Nat → Option (List Char × List Nat)
  | 0, input => some ([], input)
  | n + 1, input => do
      let (c, r) ← decodeNat input
      let (cs, r2) ← decodeChars n r
      pure (Char.ofNat c :: cs, r2)

/-- Inverse of `encodeStrBytes`, returning the remaining input. -/
def decodeStrBytes (input : List Nat) : Option (String × List Nat) := do
  let (n, r) ← decodeNat input
  let (cs, r2) ← decodeChars n r
  pure (String.mk cs, r2)

/-- Tagged encoding of a `PickleVal`. -/
def encodeVal : PickleVal → List Nat
  | .pnone => [0]
  | .pint (.ofNat n) => 1 :: encodeNat n
  | .pint (.negSucc n) => 2 :: encodeNat n
  | .pstr s => 3 :: encodeStrBytes s
  | .ppair a b => 4 :: (encodeVal a ++ encodeVal b)

/-- Structural size of a `PickleVal`; a fuel of at least this suffices to
decode its encoding. -/
def pvWeight : PickleVal → Nat
  | .ppair a b => 1 + pvWeight a + pvWeight b
  | _ => 1

/-- Fuelled inverse of `encodeVal`, returning the remaining input. -/
def decodeValF : Nat → List Nat → Option (PickleVal × List Nat)
  | 0, _ => none
  | fuel + 1, input =>
    match input with
    | 0 :: rest => some (.pnone, rest)
    | 1 :: rest => (decodeNat rest).map (fun p => (.pint (Int.ofNat p.1), p.2))
    | 2 :: rest => (decodeNat rest).map (fun p => (.pint (Int.negSucc p.1), p.2))
    | 3 :: rest => (decodeStrBytes rest).map (fun p => (.pstr p.1, p.2))
    | 4 :: rest => do
        let (a, r) ← decodeValF fuel rest
        let (b, r2) ← decodeValF fuel r
        pure (.ppair a b, r2)
    | _ => none

/-- The session bag: the entries of the `PickleSession` dict. -/
abbrev Bag := List (String × PickleVal)

/-- Encoding of one dict entry (key, then value). -/
def encodeEntry (e : String × PickleVal) : List Nat :=
  encodeStrBytes e.1 ++ encodeVal e.2

/-- `pickle.dumps(dict(self), pickle.HIGHEST_PROTOCOL)`: entry count, then
each entry. -/
def pickleDumps (b : Bag) : List Nat :=
  encodeNat b.length ++ (b.map encodeEntry).flatten

/-- Decode `n` dict entries with the given fuel for nested values. -/
def decodeEntries (fuel : Nat) : Nat → List Nat → Option (Bag × List Nat)
  | 0, input => some ([], input)
  | n + 1, input => do
      let (k, r) ← decodeStrBytes input
      let (v, r2) ← decodeValF fuel r
      let (es, r3) ← decodeEntries fuel n r2
      pure ((k, v) :: es, r3)

/-- `pickle.loads`: `none` models `pickle.UnpicklingError`. -/
def pickleLoads (input : List Nat) : Option Bag := do
  let (n, r) ← decodeNat input
  let (es, _) ← decodeEntries input.length n r
  pure es

/-! ## `PickleSession` (lines 66–95)

The Trac request session (`req.session`) maps string keys to string values;
it is modelled as an association list.  A `PickleSession` is the decoded bag
for one key together with the session it writes back to; since every mutator
immediately calls `save`, the functions below return the updated session. -/

/-- The Trac request session: a string-to-string dict. -/
abbrev Session := List (String × String)

/-- `PickleSession.__init__`: decode `req.session[skey]`; a missing key
(`KeyError`), a base64 failure (`TypeError`) or an unpickling failure
(`pickle.UnpicklingError`) all leave the bag empty. -/
def PickleSession.load (session : Session) (skey : String) : Bag :=
  match session.lookup skey with
  | none => []
  | some stored =>
    match b64decode stored with
    | none => []
    | some bytes =>
      match pickleLoads bytes with
      | none => []
      | some bag => bag

/-- `PickleSession.save`: a non-empty bag is pickled, base64-encoded and
stored under `skey`; an empty bag instead removes `skey` from the session if
present. -/
def PickleSession.save (skey : String) (bag : Bag) (session : Session) :
    Session :=
  if bag.length > 0 then
    dictSet skey (b64encode (pickleDumps bag)) session
  else if (session.lookup skey).isSome then dictDel skey session
  else session

/-- `PickleSession.clear` (a `_session_mutator`): empty the bag, then
immediately `save`. -/
def PickleSession.clear (skey : String) (session : Session) :
    Bag × Session :=
  ([], PickleSession.save skey [] session)

/-! ## The consumer (`OpenIDConsumer`, lines 158–268)

The python-openid engine (`consumer_class`) is an opaque dependency: the
response object `consumer.complete` returns, and the `AuthRequest` object
`consumer.begin` returns (or the `DiscoveryFailure` it raises), are inputs
of the embedded methods. -/

/-- python-openid response status constants
(`openid.consumer.consumer.{SUCCESS, FAILURE, CANCEL, SETUP_NEEDED}`). -/
def SUCCESS : String := "success"

/-- `openid.consumer.consumer.FAILURE`. -/
def FAILURE : String := "failure"

/-- `openid.consumer.consumer.CANCEL`. -/
def CANCEL : String := "cancel"

/-- `openid.consumer.consumer.SETUP_NEEDED`. -/
def SETUP_NEEDED : String := "setup_needed"

/-- The discovered endpoint attached to a response; `canonicalID` is `None`
or the i-name's persistent canonical ID. -/
structure OpenIDEndpoint where
  canonicalID : Option String
deriving DecidableEq

/-- The response object returned by the engine's `complete`, with the fields
this component reads. -/
structure ConsumerResponse where
  status : String
  message : Option String
  identity_url : Option String
  setup_url : Option String
  endpoint : OpenIDEndpoint
deriving DecidableEq

/-- Modelled from the spec: `OpenIDIdentifier` (from `authopenid.api`, not
under `src/`) wraps the normalized claimed identity string; extension
providers may attach parsed data to it ("Invoke every registered extension
provider ... to parse provider-specific data out of the raw response
into/against the Identifier"). -/
structure OpenIDIdentifier where
  identifier : Option String
  signed_data : List (String × String)
deriving DecidableEq

/-- The in-memory descriptor returned by the engine's `begin`:
delivery-mode preference and the two URL/markup builders, each taking
(trust_root, return_to, immediate). -/
structure AuthRequest where
  shouldSendRedirect : Bool
  redirectURL : String → String → Bool → String
  htmlMarkup : String → String → Bool → String

/-- An `IOpenIDExtensionProvider`: may augment the outgoing request, and on
`complete` may attach parsed data to the identifier or raise a validation
error (`Except.error`) that aborts the whole call. -/
structure ExtensionProvider where
  add_to_auth_request : AuthRequest → AuthRequest
  parse_response :
    ConsumerResponse → OpenIDIdentifier → Except String (List (String × String))

/-- Run `provider.parse_response(response, identifier)` over the registered
providers in order, accumulating attached data; a raised error aborts. -/
def runProviders (providers : List ExtensionProvider)
    (response : ConsumerResponse) (ident : OpenIDIdentifier) :
    Except String OpenIDIdentifier :=
  match providers with
  | [] => .ok ident
  | p :: ps =>
    match p.parse_response response ident with
    | .error e => .error e
    | .ok d =>
      runProviders ps response
        { ident with signed_data := ident.signed_data ++ d }

/-- `OpenIDConsumer.consumer_skey`. -/
def consumer_skey : String := "openid_session_data"

/-- How a call to `OpenIDConsumer.complete` ends: one of the three raised
outcome exceptions (`AuthenticationFailed`, `AuthenticationCancelled`,
`SetupNeeded` from `authopenid.api`, modelled from the spec as carriers of
the classified outcome's payload), a propagated extension-provider error,
the `AssertionError` of `assert response.status == SUCCESS`, or the
returned identifier. -/
inductive CompleteResult : Type
  | authenticationFailed (message : Option String) (identity_url : Option String)
  | authenticationCancelled
  | setupNeeded (setup_url : Option String)
  | extensionError (e : String)
  | assertionError
  | ok (identifier : OpenIDIdentifier)
deriving DecidableEq

/-- `OpenIDConsumer.complete` (lines 218–256) from the point where the
engine has returned `response`, together with the resulting request
session. -/
def complete (providers : List ExtensionProvider) (session0 : Session)
    (response : ConsumerResponse) : CompleteResult × Session :=
  let bag := PickleSession.load session0 consumer_skey
  let cleared :=
    if response.status ≠ SETUP_NEEDED then PickleSession.clear consumer_skey session0
    else (bag, session0)
  let session := cleared.2
  let result : CompleteResult :=
    if response.status = FAILURE then
      .authenticationFailed response.message response.identity_url
    else if response.status = CANCEL then
      .authenticationCancelled
    else if response.status = SETUP_NEEDED then
      .setupNeeded response.setup_url
    else if response.status = SUCCESS then
      let claimed : Option String :=
        if pyTruthy response.endpoint.canonicalID then response.endpoint.canonicalID
        else response.identity_url
      let identifier : OpenIDIdentifier := ⟨claimed, []⟩
      match runProviders providers response identifier with
      | .error e => .extensionError e
      | .ok i => .ok i
    else
      .assertionError
  (result, session)

/-- A delivery signal issued to the web layer during `begin`:
`req.redirect(url)` or `req.send(body, 'text/html')`. -/
inductive Signal : Type
  | redirect (url : String)
  | send (body : String) (contentType : String)
deriving DecidableEq

/-- How a call to `OpenIDConsumer.begin` ends: the `_get_trust_root`
assertion, a propagated `DiscoveryFailure`, or `RequestDone` (raised by
`req.redirect`/`req.send`) after exactly one delivery signal.  There is no
normal-return constructor used: a normal return would be `Except.ok ()`. -/
inductive BeginExit : Type
  | assertionError (msg : String)
  | discoveryFailure
  | requestDone (signal : Signal)

/-- `OpenIDConsumer.begin` (lines 187–216).  `discovery` is the result of
the engine's `consumer.begin(identifier)`: the constructed `AuthRequest`, or
the `DiscoveryFailure` it raises. -/
def begin (absolute_trust_root : Bool) (base : BaseHref)
    (providers : List ExtensionProvider)
    (discovery : Except Unit AuthRequest)
    (return_to : String) (trust_root : Option String) (immediate : Bool) :
    Except BeginExit Unit := do
  let tr ← match trust_root with
    | some t => pure t
    | none =>
      match get_trust_root absolute_trust_root base with
      | .ok t => pure t
      | .error e => throw (BeginExit.assertionError e)
  let auth_request ← match discovery with
    | .ok ar => pure ar
    | .error _ => throw BeginExit.discoveryFailure
  let auth_request :=
    providers.foldl (fun ar p => p.add_to_auth_request ar) auth_request
  if auth_request.shouldSendRedirect then
    throw (BeginExit.requestDone
      (Signal.redirect (auth_request.redirectURL tr return_to immediate)))
  else
    throw (BeginExit.requestDone
      (Signal.send (auth_request.htmlMarkup tr return_to immediate) "text/html"))

/-! ## Helper lemmas -/

theorem lookup_dictDel (k : String) (s : List (String × String)) :
    (dictDel k s).lookup k = none := by
  induction s with
  | nil => rfl
  | cons p t ih =>
    by_cases h : p.1 = k
    · simpa [dictDel, h] using ih
    · simpa [dictDel, List.lookup_cons, h, Ne.symm h] using ih

theorem lookup_map_replace (k v : String) (l : List (String × String))
    (hl : (l.lookup k).isSome) :
    (l.map (fun p => if p.1 = k then (p.1, v) else p)).lookup k = some v := by
  induction l with
  | nil => simp at hl
  | cons p t ih =>
    obtain ⟨a, b⟩ := p
    by_cases h : a = k
    · simp [h, List.lookup_cons]
    · have hba : (k == a) = false := beq_eq_false_iff_ne.mpr (Ne.symm h)
      simp only [List.lookup_cons, hba] at hl
      simpa [List.lookup_cons, hba, h] using ih hl

theorem lookup_dictSet (k v : String) (s : List (String × String)) :
    (dictSet k v s).lookup k = some v := by
  unfold dictSet
  by_cases h : (s.lookup k).isSome
  · rw [if_pos h]
    exact lookup_map_replace k v s h
  · rw [if_neg h, List.lookup_append]
    rw [Option.not_isSome_iff_eq_none] at h
    simp [h]

theorem lookup_map_replace_append (k v w : String) (l : List (String × String)) :
    ((l ++ [(k, w)]).map
      (fun p => if p.1 = k then (p.1, v) else p)).lookup k = some v := by
  induction l with
  | nil => simp
  | cons p t ih =>
    obtain ⟨a, b⟩ := p
    by_cases h : a = k
    · simp [h, List.lookup_cons]
    · have hba : (k == a) = false := beq_eq_false_iff_ne.mpr (Ne.symm h)
      simpa [List.lookup_cons, hba, h] using ih

theorem pyEndsWith_append_slash (s : String) :
    pyEndsWith (s ++ "/") "/" = true := by
  have hd : ("/" : String).data = ['/'] := rfl
  simp [pyEndsWith, String.data_append, hd, List.isSuffixOf, List.isPrefixOf]

theorem runProviders_preserves_identifier (ps : List ExtensionProvider)
    (resp : ConsumerResponse) (ident i : OpenIDIdentifier)
    (h : runProviders ps resp ident = .ok i) :
    i.identifier = ident.identifier := by
  induction ps generalizing ident with
  | nil =>
    simp only [runProviders, Except.ok.injEq] at h
    rw [← h]
  | cons p ps ih =>
    simp only [runProviders] at h
    cases hp : p.parse_response resp ident with
    | error e => rw [hp] at h; cases h
    | ok d =>
      rw [hp] at h
      exact ih { ident with signed_data := ident.signed_data ++ d } h

theorem lookup_save_empty (skey : String) (session : Session) :
    (PickleSession.save skey [] session).lookup skey = none := by
  unfold PickleSession.save
  rw [if_neg (by simp)]
  by_cases h : (session.lookup skey).isSome
  · rw [if_pos h]
    exact lookup_dictDel skey session
  · rw [if_neg h]
    exact Option.not_isSome_iff_eq_none.mp h

/-! ## Claim theorems -/

/-- C4: for every request, the derived trust root is a URL whose scheme and
network location are those of the request's base URL; its path is exactly
`/` when `absolute_trust_root` is enabled, regardless of the application's
path prefix, and otherwise equals the application's own path prefix and
always ends in `/`. -/
theorem get_trust_root_realm_path (base : BaseHref)
    (hs : base.scheme ≠ "") (hn : base.netloc ≠ "") :
    get_trust_root true base = .ok (urlunparse base.scheme base.netloc "/") ∧
    get_trust_root false base =
      .ok (urlunparse base.scheme base.netloc (base.path ++ "/")) := by
  have hslash : pyEndsWith "/" "/" = true := rfl
  constructor
  · simp [get_trust_root, hs, hn, hslash]
  · simp [get_trust_root, hs, hn, pyEndsWith_append_slash]

/-- Witness for C4 at a concrete base URL with a nonempty project prefix. -/
theorem get_trust_root_realm_path_witness :
    get_trust_root true ⟨"https", "rp.example", "/proj"⟩ =
      .ok (urlunparse "https" "rp.example" "/") ∧
    get_trust_root false ⟨"https", "rp.example", "/proj"⟩ =
      .ok (urlunparse "https" "rp.example" ("/proj" ++ "/")) :=
  get_trust_root_realm_path ⟨"https", "rp.example", "/proj"⟩
    (by decide) (by decide)

/-- C8: whenever the recorded schema version is strictly greater than the
version the selected store backend calls for, `environment_needs_upgrade`
raises a `TracError` (a fatal configuration error) and leaves the stored
data untouched; a downgrade is never silently handled. -/
theorem needs_upgrade_downgrade_fatal (hasCT : Bool) (env : TracEnv)
    (have_ : Int) (hv : get_schema_version env = some have_)
    (hgt : have_ > (if hasCT then (1 : Int) else 0)) :
    environment_needs_upgrade hasCT env =
      (.error (downgrade_error have_ (if hasCT then 1 else 0)), env) := by
  simp only [environment_needs_upgrade, hv]
  rw [if_pos hgt]

/-- Witness for C8: stored version 1 with the in-memory store's target 0. -/
theorem needs_upgrade_downgrade_fatal_witness :
    environment_needs_upgrade false ⟨[(schema_version_key, "1")], []⟩ =
      (.error (downgrade_error 1 (if false then 1 else 0)),
       ⟨[(schema_version_key, "1")], []⟩) :=
  needs_upgrade_downgrade_fatal false ⟨[(schema_version_key, "1")], []⟩ 1
    (by decide) (by decide)

/-- C9: `upgrade_environment` from an unversioned state in which the
`oid_associations` table already exists never calls `store.createTables()`
and still advances the recorded schema version to 1. -/
theorem upgrade_preexisting_tables_no_recreate (hasCT : Bool) (env : TracEnv)
    (hv : get_schema_version env = none)
    (ht : table_exists env "oid_associations" = true) :
    ∃ r, upgrade_environment hasCT env = .ok r ∧
      r.createTablesCalled = false ∧
      get_schema_version r.env = some 1 := by
  have ht1 : table_exists
      (sysInsert schema_version_key (py_str 0) env) "oid_associations" = true := by
    simpa [table_exists, sysInsert] using ht
  refine ⟨⟨sysUpdate schema_version_key (py_str 1)
      (sysInsert schema_version_key (py_str 0) env), false⟩, ?_, rfl, ?_⟩
  · simp [upgrade_environment, hv, ht1]
  · have : py_int (py_str 1) = some 1 := by decide
    simpa [get_schema_version, sysUpdate, sysInsert, this] using
      congrArg (·.bind py_int)
        (lookup_map_replace_append schema_version_key (py_str 1) (py_str 0)
          env.system)

/-- Witness for C9: empty system table, association table pre-existing. -/
theorem upgrade_preexisting_tables_no_recreate_witness :
    ∃ r, upgrade_environment true ⟨[], ["oid_associations", "oid_nonces"]⟩ =
        .ok r ∧
      r.createTablesCalled = false ∧
      get_schema_version r.env = some 1 :=
  upgrade_preexisting_tables_no_recreate true
    ⟨[], ["oid_associations", "oid_nonces"]⟩ (by decide) (by decide)

/-- C10: with a database dialect that has no matching SQL store backend (the
in-memory fallback, lacking `createTables`, is selected),
`upgrade_environment` still records schema version 1, after which every
`environment_needs_upgrade` call computes a wanted version of 0 and raises
the fatal downgrade error — the environment can never pass the check
again. -/
theorem memstore_upgrade_bricks_environment (scheme : String) (env : TracEnv)
    (hscheme : STORE_SCHEMES.contains scheme = false)
    (hv : get_schema_version env = none) :
    ∃ r, upgrade_environment (store_has_createTables scheme) env = .ok r ∧
      get_schema_version r.env = some 1 ∧
      environment_needs_upgrade (store_has_createTables scheme) r.env =
        (.error (downgrade_error 1 0), r.env) := by
  have hct : store_has_createTables scheme = false := hscheme
  set env1 := sysInsert schema_version_key (py_str 0) env with henv1
  have hlook : get_schema_version
      (sysUpdate schema_version_key (py_str 1) env1) = some 1 := by
    have : py_int (py_str 1) = some 1 := by decide
    simpa [get_schema_version, sysUpdate, sysInsert, henv1, this] using
      congrArg (·.bind py_int)
        (lookup_map_replace_append schema_version_key (py_str 1) (py_str 0)
          env.system)
  refine ⟨⟨sysUpdate schema_version_key (py_str 1) env1, false⟩, ?_, hlook, ?_⟩
  · by_cases ht : table_exists env1 "oid_associations" <;>
      simp [upgrade_environment, hv, hct, ht, henv1]
  · have h10 : (1 : Int) > 0 := by decide
    simp only [environment_needs_upgrade, hlook, hct]
    norm_num

/-- C1: for every `complete` call in which the engine returns a response,
the result is classified by status into exactly one outcome with fields
copied verbatim: FAILURE raises `AuthenticationFailed(message,
identity_url)`, CANCEL raises `AuthenticationCancelled` with no payload,
SETUP_NEEDED raises `SetupNeeded(setup_url)`, SUCCESS returns the
identifier, and any other status is the fatal `AssertionError`, not a
user-facing outcome. -/
theorem complete_outcome_classification (providers : List ExtensionProvider)
    (session : Session) (response : ConsumerResponse) :
    (response.status = FAILURE →
      (complete providers session response).1 =
        .authenticationFailed response.message response.identity_url) ∧
    (response.status = CANCEL →
      (complete providers session response).1 = .authenticationCancelled) ∧
    (response.status = SETUP_NEEDED →
      (complete providers session response).1 = .setupNeeded response.setup_url) ∧
    (∀ i, response.status = SUCCESS →
      runProviders providers response
        ⟨if pyTruthy response.endpoint.canonicalID then
            response.endpoint.canonicalID
          else response.identity_url, []⟩ = .ok i →
      (complete providers session response).1 = .ok i) ∧
    (response.status ≠ FAILURE → response.status ≠ CANCEL →
      response.status ≠ SETUP_NEEDED → response.status ≠ SUCCESS →
      (complete providers session response).1 = .assertionError) := by
  refine ⟨fun h => ?_, fun h => ?_, fun h => ?_, fun i h hrun => ?_,
    fun h1 h2 h3 h4 => ?_⟩
  · simp [complete, h, FAILURE, CANCEL, SETUP_NEEDED, SUCCESS]
  · simp [complete, h, FAILURE, CANCEL, SETUP_NEEDED, SUCCESS]
  · simp [complete, h, FAILURE, CANCEL, SETUP_NEEDED, SUCCESS]
  · simp [complete, h, FAILURE, CANCEL, SETUP_NEEDED, SUCCESS] at hrun ⊢
    rw [hrun]
  · simp [complete, h1, h2, h3, h4]

/-- Witness for C1: one concrete response per status, including an unknown
status. -/
theorem complete_outcome_classification_witness :
    (complete [] []
        ⟨"failure", some "bad", some "https://alice.example/", none, ⟨none⟩⟩).1 =
      .authenticationFailed (some "bad") (some "https://alice.example/") ∧
    (complete [] [] ⟨"cancel", none, none, none, ⟨none⟩⟩).1 =
      .authenticationCancelled ∧
    (complete [] []
        ⟨"setup_needed", none, none, some "https://idp/setup", ⟨none⟩⟩).1 =
      .setupNeeded (some "https://idp/setup") ∧
    (complete [] []
        ⟨"success", none, some "https://alice.example/", none, ⟨none⟩⟩).1 =
      .ok ⟨some "https://alice.example/", []⟩ ∧
    (complete [] [] ⟨"bogus", none, none, none, ⟨none⟩⟩).1 =
      .assertionError :=
  ⟨(complete_outcome_classification [] [] _).1 rfl,
   (complete_outcome_classification [] [] _).2.1 rfl,
   (complete_outcome_classification [] [] _).2.2.1 rfl,
   (complete_outcome_classification [] [] _).2.2.2.1
     ⟨some "https://alice.example/", []⟩ rfl rfl,
   (complete_outcome_classification [] [] _).2.2.2.2
     (by decide) (by decide) (by decide) (by decide)⟩

/-- C2: for every `complete` call whose response has status SUCCESS and
that returns an identifier, the identifier equals the endpoint's canonical
ID when one is carried (canonical ID takes precedence), and otherwise
equals the response's `identity_url`. -/
theorem complete_success_prefers_canonical_id
    (providers : List ExtensionProvider) (session : Session)
    (response : ConsumerResponse) (i : OpenIDIdentifier)
    (hs : response.status = SUCCESS)
    (hok : (complete providers session response).1 = .ok i) :
    (∀ cid, response.endpoint.canonicalID = some cid → cid ≠ "" →
      i.identifier = some cid) ∧
    (response.endpoint.canonicalID = none →
      i.identifier = response.identity_url) := by
  have hid : i.identifier =
      (if pyTruthy response.endpoint.canonicalID then
        response.endpoint.canonicalID
      else response.identity_url) := by
    simp only [complete, hs] at hok
    simp only [FAILURE, CANCEL, SETUP_NEEDED, SUCCESS] at hok
    norm_num at hok
    cases hrp : runProviders providers response
        ⟨if pyTruthy response.endpoint.canonicalID then
            response.endpoint.canonicalID
          else response.identity_url, []⟩ with
    | error e => rw [hrp] at hok; cases hok
    | ok i' =>
      rw [hrp] at hok
      cases hok
      exact runProviders_preserves_identifier _ _ _ _ hrp
  constructor
  · intro cid hcid hne
    rw [hid, hcid]
    simp [pyTruthy, String.isEmpty_iff, hne]
  · intro hcid
    rw [hid, hcid]
    simp [pyTruthy]

/-- Witness for C2 at a response carrying both a canonical ID and a human
identity URL. -/
theorem complete_success_prefers_canonical_id_witness :
    (∀ cid,
      (⟨"success", none, some "https://alice.example/", none,
          ⟨some "xri://=!1234"⟩⟩ : ConsumerResponse).endpoint.canonicalID =
        some cid → cid ≠ "" →
      (⟨some "xri://=!1234", []⟩ : OpenIDIdentifier).identifier = some cid) ∧
    ((⟨"success", none, some "https://alice.example/", none,
        ⟨some "xri://=!1234"⟩⟩ : ConsumerResponse).endpoint.canonicalID =
      none →
      (⟨some "xri://=!1234", []⟩ : OpenIDIdentifier).identifier =
        some "https://alice.example/") :=
  complete_success_prefers_canonical_id [] []
    ⟨"success", none, some "https://alice.example/", none,
      ⟨some "xri://=!1234"⟩⟩
    ⟨some "xri://=!1234", []⟩ rfl (by decide)

/-- C3: for every `complete` call in which the engine returns a response,
the session bag is cleared — and, being empty, its underlying session key is
removed rather than stored as an empty encoding — exactly when the status is
not SETUP_NEEDED; on SETUP_NEEDED the session is left unchanged. -/
theorem complete_clears_session_unless_setup_needed
    (providers : List ExtensionProvider) (session : Session)
    (response : ConsumerResponse) :
    (response.status ≠ SETUP_NEEDED →
      ((complete providers session response).2.lookup consumer_skey = none ∧
       PickleSession.load (complete providers session response).2
         consumer_skey = [])) ∧
    (response.status = SETUP_NEEDED →
      (complete providers session response).2 = session) := by
  constructor
  · intro h
    have h2 : (complete providers session response).2 =
        PickleSession.save consumer_skey [] session := by
      simp [complete, PickleSession.clear, h]
    have hlook := lookup_save_empty consumer_skey session
    rw [h2]
    exact ⟨hlook, by simp [PickleSession.load, hlook]⟩
  · intro h
    simp [complete, h]

/-- Witness for C3: a session holding a value under the consumer key, once
with status `cancel` (cleared, key removed) and once with status
`setup_needed` (left unchanged). -/
theorem complete_clears_session_unless_setup_needed_witness :
    ((complete [] [(consumer_skey, "stale")]
        ⟨"cancel", none, none, none, ⟨none⟩⟩).2.lookup consumer_skey = none ∧
      PickleSession.load
        (complete [] [(consumer_skey, "stale")]
          ⟨"cancel", none, none, none, ⟨none⟩⟩).2 consumer_skey = []) ∧
    (complete [] [(consumer_skey, "stale")]
        ⟨"setup_needed", none, none, none, ⟨none⟩⟩).2 =
      [(consumer_skey, "stale")] :=
  ⟨(complete_clears_session_unless_setup_needed [] [(consumer_skey, "stale")]
      ⟨"cancel", none, none, none, ⟨none⟩⟩).1 (by decide),
   (complete_clears_session_unless_setup_needed [] [(consumer_skey, "stale")]
      ⟨"setup_needed", none, none, none, ⟨none⟩⟩).2 rfl⟩

/-- C5: for every `begin` call in which discovery succeeds, exactly one
delivery signal is issued — an HTTP redirect whose target is built from the
trust root, return URL and immediate flag, or an auto-submitting HTML form
body built from the same parameters — and `begin` terminates request
processing by raising `RequestDone` rather than returning normally. -/
theorem begin_single_delivery_signal (absolute : Bool) (base : BaseHref)
    (providers : List ExtensionProvider) (discovery : Except Unit AuthRequest)
    (return_to : String) (trust_root : Option String) (immediate : Bool)
    (ar0 : AuthRequest)
    (hs : base.scheme ≠ "") (hn : base.netloc ≠ "")
    (hd : discovery = .ok ar0) :
    ∃ tr, begin absolute base providers discovery return_to trust_root immediate
      = .error (.requestDone
          (if (providers.foldl (fun a p => p.add_to_auth_request a)
              ar0).shouldSendRedirect then
            .redirect ((providers.foldl (fun a p => p.add_to_auth_request a)
              ar0).redirectURL tr return_to immediate)
          else
            .send ((providers.foldl (fun a p => p.add_to_auth_request a)
              ar0).htmlMarkup tr return_to immediate) "text/html")) := by
  subst hd
  cases trust_root with
  | some t =>
    refine ⟨t, ?_⟩
    by_cases hred : (providers.foldl (fun a p => p.add_to_auth_request a)
        ar0).shouldSendRedirect <;>
      · simp [begin, hred]
        rfl
  | none =>
    obtain ⟨t, ht⟩ : ∃ t, get_trust_root absolute base = .ok t := by
      unfold get_trust_root
      rw [if_neg (by simp [hs, hn])]
      exact ⟨_, rfl⟩
    refine ⟨t, ?_⟩
    by_cases hred : (providers.foldl (fun a p => p.add_to_auth_request a)
        ar0).shouldSendRedirect <;>
      · simp [begin, ht, hred]
        rfl

/-- Witness for C5: a concrete redirect-preferring auth request. -/
theorem begin_single_delivery_signal_witness :
    ∃ tr, begin true ⟨"https", "rp.example", ""⟩ []
        (Except.ok ⟨true, fun t _ _ => t, fun _ _ _ => "form"⟩)
        "https://rp.example/return" (some "https://rp.example/") false
      = .error (.requestDone (Signal.redirect tr)) :=
  begin_single_delivery_signal true ⟨"https", "rp.example", ""⟩ []
    (Except.ok ⟨true, fun t _ _ => t, fun _ _ _ => "form"⟩)
    "https://rp.example/return" (some "https://rp.example/") false
    ⟨true, fun t _ _ => t, fun _ _ _ => "form"⟩
    (by decide) (by decide) rfl

/-- C6: for every load of a `PickleSession`, any failure to decode the
stored value — missing key, wrong value type (base64 failure), or corrupt
payload (unpickling failure) — yields an empty bag; the constructor is total
and never surfaces an error. -/
theorem pickle_session_load_failure_empty (session : Session) (skey : String) :
    (session.lookup skey = none → PickleSession.load session skey = []) ∧
    (∀ stored, session.lookup skey = some stored → b64decode stored = none →
      PickleSession.load session skey = []) ∧
    (∀ stored bytes, session.lookup skey = some stored →
      b64decode stored = some bytes → pickleLoads bytes = none →
      PickleSession.load session skey = []) := by
  refine ⟨fun h => ?_, fun stored h1 h2 => ?_, fun stored bytes h1 h2 h3 => ?_⟩
  · simp [PickleSession.load, h]
  · simp [PickleSession.load, h1, h2]
  · simp [PickleSession.load, h1, h2, h3]

/-- Witness for C6: a value that is not valid base64. -/
theorem pickle_session_load_failure_empty_witness :
    PickleSession.load [("openid_session_data", "!!!")]
      "openid_session_data" = [] :=
  (pickle_session_load_failure_empty [("openid_session_data", "!!!")]
      "openid_session_data").2.1 "!!!" (by decide) (by decide)

/-- Witness for C10: an unsupported database dialect. -/
theorem memstore_upgrade_bricks_environment_witness :
    ∃ r, upgrade_environment (store_has_createTables "firebird")
        ⟨[], []⟩ = .ok r ∧
      get_schema_version r.env = some 1 ∧
      environment_needs_upgrade (store_has_createTables "firebird") r.env =
        (.error (downgrade_error 1 0), r.env) :=
  memstore_upgrade_bricks_environment "firebird" ⟨[], []⟩
    (by decide) (by decide)

/-! ## Round-trip of the pickle/base64 encoding (for C7) -/

theorem decodeNat_encodeNat (n : Nat) (rest : List Nat) :
    decodeNat (encodeNat n ++ rest) = some (n, rest) := by
  induction n with
  | zero => rfl
  | succ n ih => simp [encodeNat, decodeNat, ih]

theorem decodeChars_encode (cs : List Char) (rest : List Nat) :
    decodeChars cs.length
      ((cs.map (fun c => encodeNat c.toNat)).flatten ++ rest) =
      some (cs, rest) := by
  induction cs generalizing rest with
  | nil => rfl
  | cons c cs ih =>
    simp [decodeChars, List.append_assoc, decodeNat_encodeNat, ih,
      Char.ofNat_toNat]

theorem decodeStrBytes_encode (s : String) (rest : List Nat) :
    decodeStrBytes (encodeStrBytes s ++ rest) = some (s, rest) := by
  obtain ⟨data⟩ := s
  simp [decodeStrBytes, encodeStrBytes, List.append_assoc,
    decodeNat_encodeNat, decodeChars_encode]

theorem decodeValF_encodeVal (v : PickleVal) :
    ∀ fuel rest, pvWeight v ≤ fuel →
      decodeValF fuel (encodeVal v ++ rest) = some (v, rest) := by
  induction v with
  | pnone =>
    intro fuel rest h
    match fuel with
    | 0 => simp [pvWeight] at h
    | fuel + 1 => rfl
  | pint n =>
    intro fuel rest h
    match fuel with
    | 0 => simp [pvWeight] at h
    | fuel + 1 =>
      cases n with
      | ofNat m => simp [encodeVal, decodeValF, decodeNat_encodeNat]
      | negSucc m => simp [encodeVal, decodeValF, decodeNat_encodeNat]
  | pstr s =>
    intro fuel rest h
    match fuel with
    | 0 => simp [pvWeight] at h
    | fuel + 1 => simp [encodeVal, decodeValF, decodeStrBytes_encode]
  | ppair a b iha ihb =>
    intro fuel rest h
    match fuel with
    | 0 => simp [pvWeight] at h
    | fuel + 1 =>
      have ha : pvWeight a ≤ fuel := by simp [pvWeight] at h; omega
      have hb : pvWeight b ≤ fuel := by simp [pvWeight] at h; omega
      simp [encodeVal, decodeValF, List.append_assoc, iha fuel _ ha,
        ihb fuel rest hb]

theorem decodeEntries_encode (es : Bag) :
    ∀ fuel rest, (∀ e ∈ es, pvWeight e.2 ≤ fuel) →
      decodeEntries fuel es.length ((es.map encodeEntry).flatten ++ rest) =
        some (es, rest) := by
  induction es with
  | nil => intro fuel rest _; rfl
  | cons e es ih =>
    intro fuel rest h
    have he : pvWeight e.2 ≤ fuel := h e (by simp)
    have hes : ∀ x ∈ es, pvWeight x.2 ≤ fuel := fun x hx => h x (by simp [hx])
    simp [decodeEntries, encodeEntry, List.append_assoc,
      decodeStrBytes_encode, decodeValF_encodeVal e.2 fuel _ he, ih fuel rest hes]

theorem pvWeight_le_encodeVal_length (v : PickleVal) :
    pvWeight v ≤ (encodeVal v).length := by
  induction v with
  | pnone => simp [pvWeight, encodeVal]
  | pint n =>
    cases n with
    | ofNat m => simp [pvWeight, encodeVal]
    | negSucc m => simp [pvWeight, encodeVal]
  | pstr s => simp [pvWeight, encodeVal]
  | ppair a b iha ihb =>
    simp only [pvWeight, encodeVal, List.length_cons, List.length_append]
    omega

theorem mem_pvWeight_le_dumps_length (b : Bag) (e : String × PickleVal)
    (he : e ∈ b) : pvWeight e.2 ≤ (pickleDumps b).length := by
  have h1 : pvWeight e.2 ≤ (encodeEntry e).length := by
    have := pvWeight_le_encodeVal_length e.2
    simp only [encodeEntry, List.length_append]
    omega
  have h2 : (encodeEntry e).length ≤ ((b.map encodeEntry).flatten).length := by
    rw [List.length_flatten]
    exact List.single_le_sum (fun x _ => Nat.zero_le x) _
      (by exact List.mem_map_of_mem _ (List.mem_map_of_mem _ he))
  have h3 : ((b.map encodeEntry).flatten).length ≤ (pickleDumps b).length := by
    simp [pickleDumps]
  omega

theorem pickleLoads_pickleDumps (b : Bag) :
    pickleLoads (pickleDumps b) = some b := by
  unfold pickleLoads pickleDumps
  rw [decodeNat_encodeNat]
  generalize hL : (encodeNat b.length ++ (b.map encodeEntry).flatten).length = L
  have hfuel : ∀ e ∈ b, pvWeight e.2 ≤ L := by
    intro e he
    rw [← hL]
    simpa [pickleDumps] using mem_pvWeight_le_dumps_length b e he
  have hent := decodeEntries_encode b L [] hfuel
  rw [List.append_nil] at hent
  simp [hent]

theorem sextetVal_sextetChar : ∀ n < 64, sextetVal (sextetChar n) = some n := by
  decide

theorem sextetChar_ne_pad : ∀ n < 64, ¬ sextetChar n = '=' := by
  decide

theorem b64decode_encodeBytes (bs : List Nat) (h : ∀ x ∈ bs, x < 256) :
    b64decodeChars (b64encodeBytes bs) = some bs := by
  induction bs using b64encodeBytes.induct with
  | case1 => rfl
  | case2 b1 =>
    have hb1 : b1 < 256 := h b1 (by simp)
    have e1 := sextetVal_sextetChar (b1 / 4) (by omega)
    have e2 := sextetVal_sextetChar (b1 % 4 * 16) (by omega)
    simp [b64encodeBytes, b64decodeChars, e1, e2]
    omega
  | case3 b1 b2 =>
    have hb1 : b1 < 256 := h b1 (by simp)
    have hb2 : b2 < 256 := h b2 (by simp)
    have e1 := sextetVal_sextetChar (b1 / 4) (by omega)
    have e2 := sextetVal_sextetChar (b1 % 4 * 16 + b2 / 16) (by omega)
    have e3 := sextetVal_sextetChar (b2 % 16 * 4) (by omega)
    have n3 := sextetChar_ne_pad (b2 % 16 * 4) (by omega)
    simp [b64encodeBytes, b64decodeChars, e1, e2, e3, n3]
    omega
  | case4 b1 b2 b3 rest ih =>
    have hb1 : b1 < 256 := h b1 (by simp)
    have hb2 : b2 < 256 := h b2 (by simp)
    have hb3 : b3 < 256 := h b3 (by simp)
    have hrest : ∀ x ∈ rest, x < 256 := fun x hx => h x (by simp [hx])
    have e1 := sextetVal_sextetChar (b1 / 4) (by omega)
    have e2 := sextetVal_sextetChar (b1 % 4 * 16 + b2 / 16) (by omega)
    have e3 := sextetVal_sextetChar (b2 % 16 * 4 + b3 / 64) (by omega)
    have e4 := sextetVal_sextetChar (b3 % 64) (by omega)
    have n3 := sextetChar_ne_pad (b2 % 16 * 4 + b3 / 64) (by omega)
    have n4 := sextetChar_ne_pad (b3 % 64) (by omega)
    simp [b64encodeBytes, b64decodeChars, e1, e2, e3, e4, n3, n4, ih hrest]
    omega

theorem encodeNat_le_one (n : Nat) : ∀ x ∈ encodeNat n, x ≤ 1 := by
  induction n with
  | zero => simp [encodeNat]
  | succ n ih =>
    intro x hx
    simp only [encodeNat, List.mem_cons] at hx
    rcases hx with h1 | h2
    · omega
    · exact ih x h2

theorem encodeStrBytes_le_one (s : String) : ∀ x ∈ encodeStrBytes s, x ≤ 1 := by
  intro x hx
  simp only [encodeStrBytes, List.mem_append] at hx
  rcases hx with h1 | h2
  · exact encodeNat_le_one _ x h1
  · obtain ⟨l, hl, hxl⟩ := List.mem_flatten.mp h2
    obtain ⟨c, _, rfl⟩ := List.mem_map.mp hl
    exact encodeNat_le_one _ x hxl

theorem encodeVal_le_four (v : PickleVal) : ∀ x ∈ encodeVal v, x ≤ 4 := by
  induction v with
  | pnone => simp [encodeVal]
  | pint n =>
    cases n with
    | ofNat m =>
      intro x hx
      simp only [encodeVal, List.mem_cons] at hx
      rcases hx with h1 | h2
      · omega
      · exact Nat.le_trans (encodeNat_le_one _ x h2) (by omega)
    | negSucc m =>
      intro x hx
      simp only [encodeVal, List.mem_cons] at hx
      rcases hx with h1 | h2
      · omega
      · exact Nat.le_trans (encodeNat_le_one _ x h2) (by omega)
  | pstr s =>
    intro x hx
    simp only [encodeVal, List.mem_cons] at hx
    rcases hx with h1 | h2
    · omega
    · exact Nat.le_trans (encodeStrBytes_le_one _ x h2) (by omega)
  | ppair a b iha ihb =>
    intro x hx
    simp only [encodeVal, List.mem_cons, List.mem_append] at hx
    rcases hx with h1 | h2 | h3
    · omega
    · exact iha x h2
    · exact ihb x h3

theorem pickleDumps_lt_256 (b : Bag) : ∀ x ∈ pickleDumps b, x < 256 := by
  intro x hx
  simp only [pickleDumps, List.mem_append] at hx
  rcases hx with h1 | h2
  · exact Nat.lt_of_le_of_lt (encodeNat_le_one _ x h1) (by omega)
  · obtain ⟨l, hl, hxl⟩ := List.mem_flatten.mp h2
    obtain ⟨e, _, rfl⟩ := List.mem_map.mp hl
    have : x ≤ 4 := by
      simp only [encodeEntry, List.mem_append] at hxl
      rcases hxl with ha | hb
      · exact Nat.le_trans (encodeStrBytes_le_one _ x ha) (by omega)
      · exact encodeVal_le_four _ x hb
    omega

theorem b64_roundtrip (bs : List Nat) (h : ∀ x ∈ bs, x < 256) :
    b64decode (b64encode bs) = some bs :=
  b64decode_encodeBytes bs h

/-- C7: saving a non-empty `PickleSession` and constructing a new one over
the same underlying session and key yields an equal bag — the encode
(pickle + base64) step composed with the decode step is the identity on
session contents. -/
theorem pickle_session_roundtrip (session : Session) (skey : String)
    (bag : Bag) (h : bag ≠ []) :
    PickleSession.load (PickleSession.save skey bag session) skey = bag := by
  have hlen : bag.length > 0 := List.length_pos.mpr h
  unfold PickleSession.save
  rw [if_pos hlen]
  simp [PickleSession.load, lookup_dictSet,
    b64_roundtrip _ (pickleDumps_lt_256 bag), pickleLoads_pickleDumps]

/-- Witness for C7: a bag with structured content (a string, an integer and
a pair) survives the round-trip. -/
theorem pickle_session_roundtrip_witness :
    PickleSession.load
      (PickleSession.save "openid_session_data"
        [("token", PickleVal.pstr "ab"),
         ("n", PickleVal.ppair (PickleVal.pint (-2)) PickleVal.pnone)]
        [("other", "x")])
      "openid_session_data" =
      [("token", PickleVal.pstr "ab"),
       ("n", PickleVal.ppair (PickleVal.pint (-2)) PickleVal.pnone)] :=
  pickle_session_roundtrip [("other", "x")] "openid_session_data"
    [("token", PickleVal.pstr "ab"),
     ("n", PickleVal.ppair (PickleVal.pint (-2)) PickleVal.pnone)]
    (by decide)

end AuthOpenId
